import Mathlib

/-!
Verification of the CCA LMS database snapshot and restore pipeline.

The embedding covers:
* `scripts/restore-backup.ts` — the operator-invoked restore utility
  (`main`, `askConfirmation`, `restoreDatabase`);
* `lib/backup` (unnamed source file) — the scheduled export pipeline
  (`exportAllTables`, `createBackup`, `cleanupOldBackups`, `listBackups`,
  `getBackupStats`).

Database and object-store effects are modelled by explicit environments
(which table reads / inserts / deletes succeed, what the store listing
returns, what the operator answers) and by traces of the calls the code
issues, so that ordering and abort behaviour are provable facts about the
embedded functions.
-/

namespace CcaLms

/-- A row of a backup table.  Only the fields the restore script inspects are
modelled: rows of the `users` table may carry the two nested 1:N collections
(`accounts`, `sessions`) that the exporter inlines; rows of every other table
ignore these fields.  The nested rows themselves are opaque (`Nat`). -/
structure Row where
  accounts : Option (List Nat) := none
  sessions : Option (List Nat) := none
deriving DecidableEq

/-- The backup document's `data` field: a map from table name to the exported
rows, `none` when the key is absent from the JSON object. -/
def BackupTables : Type := String → Option (List Row)

/-- `deleteOrder` from `restoreDatabase` (restore-backup.ts lines 329-355):
the hand-enumerated wipe order. -/
def deleteOrder : List String :=
  ["auditLogs", "notifications", "uploadedFiles", "submissionAttachments",
   "submissions", "assignmentSubmissionAttachments", "assignmentSubmissions",
   "assignments", "lessonProgress", "courseEnrollments", "quizResponses",
   "quizAttempts", "quizAnswers", "quizQuestions", "quizzes",
   "resourceVersions", "lessonResources", "lessons", "modules",
   "courseLecturers", "courses", "sessions", "accounts",
   "verificationTokens", "users"]

/-- `insertOrder` from `restoreDatabase` (restore-backup.ts lines 373-400):
pairs of backup-data key and prisma model name, in reinsert order. -/
def insertOrder : List (String × String) :=
  [("users", "user"), ("verificationTokens", "verificationToken"),
   ("courses", "course"), ("courseLecturers", "courseLecturer"),
   ("modules", "module"), ("lessons", "lesson"),
   ("lessonResources", "lessonResource"),
   ("resourceVersions", "resourceVersion"), ("quizzes", "quiz"),
   ("quizQuestions", "quizQuestion"), ("quizAnswers", "quizAnswer"),
   ("quizAttempts", "quizAttempt"), ("quizResponses", "quizResponse"),
   ("courseEnrollments", "courseEnrollment"),
   ("lessonProgress", "lessonProgress"), ("assignments", "assignment"),
   ("assignmentSubmissions", "assignmentSubmission"),
   ("assignmentSubmissionAttachments", "assignmentSubmissionAttachment"),
   ("submissions", "submission"),
   ("submissionAttachments", "submissionAttachment"),
   ("uploadedFiles", "uploadedFile"), ("notifications", "notification"),
   ("auditLogs", "auditLog")]

/-- One database call issued by the restore script, identified by the
backup-data table name (each name maps 1:1 to the prisma model used for the
call, per `insertOrder`; the two trailing nested collections use the names
`accounts` and `sessions`). -/
inductive DbCall where
  | del (table : String)
  | ins (table : String) (rows : Nat)
deriving DecidableEq

/-- Environment for a restore run: which per-table `deleteMany` calls succeed
(a failing delete is caught and the table skipped, restore-backup.ts lines
358-365) and which `createMany` calls succeed (a failing insert throws,
lines 434-437). -/
structure RestoreEnv where
  delOk : String → Bool
  insOk : String → Bool

/-- Number of rows the backup data holds for key `k` (0 when the key is
absent). -/
def rowsOf (data : BackupTables) (k : String) : Nat :=
  ((data k).getD []).length

/-- The reinsert loop of `restoreDatabase` (restore-backup.ts lines 402-438):
tables whose key is absent or empty are skipped without a call; a table whose
`createMany` throws ends the loop with the error propagating.  Returns the
issued calls and whether the loop completed. -/
def runInserts (env : RestoreEnv) (data : BackupTables) :
    List (String × String) → List DbCall × Bool
  | [] => ([], true)
  | (key, _model) :: rest =>
    match data key with
    | none => runInserts env data rest
    | some records =>
      if records.length = 0 then runInserts env data rest
      else if env.insOk key then
        let r := runInserts env data rest
        (DbCall.ins key records.length :: r.1, r.2)
      else ([DbCall.ins key records.length], false)

/-- Flattening of one nested collection across all `users` rows
(restore-backup.ts lines 441-447 for accounts, 459-465 for sessions):
rows without the nested array contribute nothing; when the `users` key is
absent the collection is empty. -/
def collectNested (which : Row → Option (List Nat)) (data : BackupTables) :
    List Nat :=
  match data "users" with
  | none => []
  | some users => users.flatMap fun u => (which u).getD []

/-- One trailing nested-collection reinsert (restore-backup.ts lines 448-455
and 466-473): a `createMany` is issued only when the flattened collection is
non-empty; a throw there propagates out of `restoreDatabase`. -/
def nestedPhase (env : RestoreEnv) (key : String) (rows : List Nat) :
    List DbCall × Bool :=
  if rows.length = 0 then ([], true)
  else ([DbCall.ins key rows.length], env.insOk key)

/-- `restoreDatabase` (restore-backup.ts lines 322-475): wipe every table in
`deleteOrder` (each delete call is issued regardless of outcome, failures
being caught and logged), then run the reinsert loop, then reinsert the
flattened `accounts` and `sessions` collections in that order.  Returns the
full trace of issued calls and whether the restore completed without a
throw. -/
def restoreDatabase (env : RestoreEnv) (data : BackupTables) :
    List DbCall × Bool :=
  let delCalls := deleteOrder.map DbCall.del
  let ins := runInserts env data insertOrder
  if ins.2 then
    let acc := nestedPhase env "accounts" (collectNested Row.accounts data)
    if acc.2 then
      let ses := nestedPhase env "sessions" (collectNested Row.sessions data)
      (delCalls ++ ins.1 ++ acc.1 ++ ses.1, ses.2)
    else (delCalls ++ ins.1 ++ acc.1, false)
  else (delCalls ++ ins.1, false)

/-- Table names of the insert calls of a trace, in order. -/
def insTables (tr : List DbCall) : List String :=
  tr.filterMap fun c =>
    match c with
    | .ins t _ => some t
    | .del _ => none

/-- Table names of the delete calls of a trace, in order. -/
def delTables (tr : List DbCall) : List String :=
  tr.filterMap fun c =>
    match c with
    | .del t => some t
    | .ins _ _ => none

/-- An environment in which every database call succeeds. -/
def allOkEnv : RestoreEnv := ⟨fun _ => true, fun _ => true⟩

/-- Backup data giving one row to every table of `insertOrder`, the single
`users` row carrying one account and one session. -/
def fullData : BackupTables := fun k =>
  if k = "users" then some [{ accounts := some [1], sessions := some [2] }]
  else if (insertOrder.map Prod.fst).contains k then some [{}]
  else none

/-- A restore environment whose `createMany` for the `verificationTokens`
batch throws while every other call succeeds. -/
def failTokensEnv : RestoreEnv :=
  ⟨fun _ => true, fun k => !(k == "verificationTokens")⟩

lemma insTables_append (a b : List DbCall) :
    insTables (a ++ b) = insTables a ++ insTables b :=
  List.filterMap_append a b _

lemma delTables_append (a b : List DbCall) :
    delTables (a ++ b) = delTables a ++ delTables b :=
  List.filterMap_append a b _

lemma insTables_ins_map {α : Type} (f : α → String) (g : α → Nat)
    (l : List α) :
    insTables (l.map fun a => DbCall.ins (f a) (g a)) = l.map f := by
  induction l with
  | nil => rfl
  | cons a rest ih => simp [insTables] at ih ⊢; try exact ih

lemma insTables_del_map (l : List String) :
    insTables (l.map DbCall.del) = [] := by
  induction l with
  | nil => rfl
  | cons a rest ih => simp [insTables] at ih ⊢; try exact ih

lemma delTables_del_map (l : List String) :
    delTables (l.map DbCall.del) = l := by
  induction l with
  | nil => rfl
  | cons a rest ih => simp [delTables] at ih ⊢; try exact ih

lemma delTables_ins_map {α : Type} (f : α → String) (g : α → Nat)
    (l : List α) :
    delTables (l.map fun a => DbCall.ins (f a) (g a)) = [] := by
  induction l with
  | nil => rfl
  | cons a rest ih => simp [delTables] at ih ⊢; try exact ih

/-- When every table of `l` has rows and its insert succeeds, the reinsert
loop completes, issuing one insert call per table in the order of `l`. -/
lemma runInserts_all_ok (env : RestoreEnv) (data : BackupTables)
    (l : List (String × String))
    (h : ∀ p ∈ l, rowsOf data p.1 ≠ 0 ∧ env.insOk p.1 = true) :
    runInserts env data l =
      (l.map fun p => DbCall.ins p.1 (rowsOf data p.1), true) := by
  induction l with
  | nil => rfl
  | cons p rest ih =>
    obtain ⟨key, model⟩ := p
    obtain ⟨hrows, hok⟩ := h (key, model) (List.mem_cons_self _ _)
    have ht := ih fun q hq => h q (List.mem_cons_of_mem _ hq)
    cases hd : data key with
    | none => simp [rowsOf, hd] at hrows
    | some records =>
      have hlen : ¬records.length = 0 := by simpa [rowsOf, hd] using hrows
      simp [runInserts, hd, hlen, hok, ht, rowsOf]

/-- C1: the claim that the per-table delete call sequence of `restoreDatabase`
is the exact reverse of its per-table insert call sequence fails on a backup
in which every table has rows: the nested `accounts` and `sessions`
collections are inserted last but are deleted in the middle of the wipe, not
first. -/
theorem C1_counterexample :
    ¬ delTables (restoreDatabase allOkEnv fullData).1 =
        (insTables (restoreDatabase allOkEnv fullData).1).reverse := by
  decide

/-- C1 (amended): on a full backup, `restoreDatabase` inserts the registry
tables in forward `insertOrder` followed by `accounts` and `sessions`, and
deletes in the fixed `deleteOrder`; the delete sequence restricted to the
registry tables is the exact reverse of the insert sequence so restricted,
and the deleted and inserted table sets coincide, but the full delete
sequence is not the exact reverse of the full insert sequence, because
`sessions` and `accounts` are wiped between `courses` and
`verificationTokens` rather than first. -/
theorem C1_wipe_reinsert_order (env : RestoreEnv) (data : BackupTables)
    (hfull : ∀ p ∈ insertOrder, rowsOf data p.1 ≠ 0 ∧ env.insOk p.1 = true)
    (hacc : (collectNested Row.accounts data).length ≠ 0)
    (hses : (collectNested Row.sessions data).length ≠ 0)
    (haccok : env.insOk "accounts" = true)
    (hsesok : env.insOk "sessions" = true) :
    insTables (restoreDatabase env data).1 =
        insertOrder.map Prod.fst ++ ["accounts", "sessions"] ∧
    delTables (restoreDatabase env data).1 = deleteOrder ∧
    (delTables (restoreDatabase env data).1).filter
        (fun t => !(t == "accounts" || t == "sessions")) =
      ((insTables (restoreDatabase env data).1).filter
        (fun t => !(t == "accounts" || t == "sessions"))).reverse ∧
    (∀ t, t ∈ delTables (restoreDatabase env data).1 ↔
        t ∈ insTables (restoreDatabase env data).1) ∧
    ¬ delTables (restoreDatabase env data).1 =
        (insTables (restoreDatabase env data).1).reverse := by
  have hloop := runInserts_all_ok env data insertOrder hfull
  have htrace : restoreDatabase env data =
      (deleteOrder.map DbCall.del ++
        ((insertOrder.map fun p => DbCall.ins p.1 (rowsOf data p.1)) ++
          ([DbCall.ins "accounts" (collectNested Row.accounts data).length] ++
           [DbCall.ins "sessions" (collectNested Row.sessions data).length])),
        true) := by
    simp [restoreDatabase, hloop, nestedPhase, hacc, hses, haccok, hsesok]
  have hins : insTables (restoreDatabase env data).1 =
      insertOrder.map Prod.fst ++ ["accounts", "sessions"] := by
    rw [htrace]
    rw [insTables_append, insTables_append, insTables_append,
      insTables_del_map,
      insTables_ins_map (fun p : String × String => p.1)
        (fun p : String × String => rowsOf data p.1)]
    simp [insTables]
  have hdel : delTables (restoreDatabase env data).1 = deleteOrder := by
    rw [htrace]
    rw [delTables_append, delTables_append, delTables_append,
      delTables_del_map,
      delTables_ins_map (fun p : String × String => p.1)
        (fun p : String × String => rowsOf data p.1)]
    simp [delTables]
  refine ⟨hins, hdel, ?_, ?_, ?_⟩
  · rw [hins, hdel]; decide
  · intro t
    rw [hins, hdel]
    have hfin : deleteOrder.toFinset =
        (insertOrder.map Prod.fst ++ ["accounts", "sessions"]).toFinset := by
      decide
    simp only [← List.mem_toFinset]
    rw [hfin]
  · rw [hins, hdel]; decide

/-- Closed witness for `C1_wipe_reinsert_order` on the all-success
environment and the full backup data. -/
theorem C1_wipe_reinsert_order_witness :
    insTables (restoreDatabase allOkEnv fullData).1 =
        insertOrder.map Prod.fst ++ ["accounts", "sessions"] ∧
    delTables (restoreDatabase allOkEnv fullData).1 = deleteOrder ∧
    (delTables (restoreDatabase allOkEnv fullData).1).filter
        (fun t => !(t == "accounts" || t == "sessions")) =
      ((insTables (restoreDatabase allOkEnv fullData).1).filter
        (fun t => !(t == "accounts" || t == "sessions"))).reverse ∧
    (∀ t, t ∈ delTables (restoreDatabase allOkEnv fullData).1 ↔
        t ∈ insTables (restoreDatabase allOkEnv fullData).1) ∧
    ¬ delTables (restoreDatabase allOkEnv fullData).1 =
        (insTables (restoreDatabase allOkEnv fullData).1).reverse :=
  C1_wipe_reinsert_order allOkEnv fullData (by decide) (by decide) (by decide)
    (by decide) (by decide)

/-- One entry of an S3 `ListObjectsV2` response: every field is optional in
the SDK's types.  Timestamps are milliseconds since the epoch (`Int`), sizes
are byte counts. -/
structure S3Object where
  key : Option String
  lastModified : Option Int
  size : Option Int
deriving DecidableEq

/-- `BACKUP_RETENTION_DAYS` (lib/backup line 14). -/
def BACKUP_RETENTION_DAYS : Int := 14

/-- Milliseconds per day, the unit `cutoffDate.setDate(getDate() - N)`
shifts by. -/
def msPerDay : Int := 86400000

/-- `CleanupResult` (lib/backup lines 57-62). -/
structure CleanupResult where
  success : Bool
  deletedCount : Option Nat := none
  deletedKeys : Option (List String) := none
  error : Option String := none
deriving DecidableEq

/-- The selection loop of `cleanupOldBackups` (lib/backup lines 369-374): an
object contributes its key when `obj.Key` is truthy (present and non-empty),
`obj.LastModified` is truthy (present — a Date object is always truthy), and
it is strictly older than the cutoff. -/
def keysToDelete (cutoff : Int) (objs : List S3Object) : List String :=
  objs.filterMap fun o =>
    match o.key, o.lastModified with
    | some k, some t =>
      if k != "" && decide (t < cutoff) then some k else none
    | _, _ => none

/-- `cleanupOldBackups` (lib/backup lines 345-407).  `now` is the current
time, `contents` the listing's `Contents` field (`none` when absent),
`listOk`/`deleteOk` whether the two store calls succeed (a throw from either
is caught and reported as failure).  Returns the result and the trace of
issued `DeleteObjectsCommand` batches, each a list of keys. -/
def cleanupOldBackups (listOk : Bool) (now : Int)
    (contents : Option (List S3Object)) (deleteOk : Bool) :
    CleanupResult × List (List String) :=
  if !listOk then ({ success := false, error := some "list failed" }, [])
  else
    let cutoff := now - BACKUP_RETENTION_DAYS * msPerDay
    match contents with
    | none => ({ success := true, deletedCount := some 0,
                 deletedKeys := some [] }, [])
    | some objs =>
      if objs.length = 0 then
        ({ success := true, deletedCount := some 0,
           deletedKeys := some [] }, [])
      else
        let ks := keysToDelete cutoff objs
        if ks.length = 0 then
          ({ success := true, deletedCount := some 0,
             deletedKeys := some [] }, [])
        else if deleteOk then
          ({ success := true, deletedCount := some ks.length,
             deletedKeys := some ks }, [ks])
        else ({ success := false, error := some "delete failed" }, [ks])

/-- Membership in the retention selection, unfolded. -/
lemma mem_keysToDelete (cutoff : Int) (objs : List S3Object) (k : String) :
    k ∈ keysToDelete cutoff objs ↔
      ∃ o ∈ objs, o.key = some k ∧ (k != "") = true ∧
        ∃ t, o.lastModified = some t ∧ t < cutoff := by
  unfold keysToDelete
  rw [List.mem_filterMap]
  constructor
  · rintro ⟨o, ho, hf⟩
    refine ⟨o, ho, ?_⟩
    rcases hk : o.key with _ | k1 <;> rcases ht : o.lastModified with _ | t1 <;>
      rw [hk, ht] at hf <;> simp at hf
    obtain ⟨⟨hne, hlt⟩, hkk⟩ := hf
    subst hkk
    exact ⟨rfl, by simpa using hne, t1, rfl, hlt⟩
  · rintro ⟨o, ho, hk, hne, t, ht, hlt⟩
    refine ⟨o, ho, ?_⟩
    rw [hk, ht]
    simp [hne, hlt]

/-- With pairwise distinct keys, two listed objects sharing a key are the
same object. -/
lemma nodup_key_unique (objs : List S3Object)
    (h : (objs.filterMap S3Object.key).Nodup) :
    ∀ o ∈ objs, ∀ o2 ∈ objs, ∀ k, o.key = some k → o2.key = some k →
      o = o2 := by
  induction objs with
  | nil => intro o ho; simp at ho
  | cons a rest ih =>
    intro o ho o2 ho2 k hk hk2
    have hrest : (rest.filterMap S3Object.key).Nodup := by
      rcases ha : a.key with _ | ka <;>
        simp [List.filterMap_cons, ha] at h
      · exact h
      · exact h.2
    rcases List.mem_cons.mp ho with rfl | ho3 <;>
      rcases List.mem_cons.mp ho2 with rfl | ho4
    · rfl
    · exfalso
      have hcons : List.filterMap S3Object.key (o :: rest) =
          k :: List.filterMap S3Object.key rest := by
        simp [List.filterMap_cons, hk]
      rw [hcons] at h
      exact (List.nodup_cons.mp h).1 (List.mem_filterMap.mpr ⟨o2, ho4, hk2⟩)
    · exfalso
      have hcons : List.filterMap S3Object.key (o2 :: rest) =
          k :: List.filterMap S3Object.key rest := by
        simp [List.filterMap_cons, hk2]
      rw [hcons] at h
      exact (List.nodup_cons.mp h).1 (List.mem_filterMap.mpr ⟨o, ho3, hk⟩)
    · exact ih hrest o ho3 o2 ho4 k hk hk2

/-- C3: with a well-formed listing (every object has a non-empty key and a
last-modified stamp, keys pairwise distinct), the retention sweep selects for
deletion exactly the archives strictly older than `now` minus 14 days; when
nothing is past the cutoff — in particular when the listing is empty or
absent — it returns `{ success, 0, [] }` without issuing any delete call. -/
theorem C3_retention_cutoff (now : Int) (objs : List S3Object)
    (deleteOk : Bool)
    (hwf : ∀ o ∈ objs, ∃ k t, o.key = some k ∧ (k != "") = true ∧
      o.lastModified = some t)
    (hnd : (objs.filterMap S3Object.key).Nodup) :
    (∀ o ∈ objs, ∀ k t, o.key = some k → o.lastModified = some t →
      (k ∈ keysToDelete (now - BACKUP_RETENTION_DAYS * msPerDay) objs ↔
        t < now - BACKUP_RETENTION_DAYS * msPerDay)) ∧
    ((∀ o ∈ objs, ∀ t, o.lastModified = some t →
        now - BACKUP_RETENTION_DAYS * msPerDay ≤ t) →
      cleanupOldBackups true now (some objs) deleteOk =
        ({ success := true, deletedCount := some 0,
           deletedKeys := some [] }, [])) ∧
    cleanupOldBackups true now none deleteOk =
      ({ success := true, deletedCount := some 0,
         deletedKeys := some [] }, []) ∧
    cleanupOldBackups true now (some []) deleteOk =
      ({ success := true, deletedCount := some 0,
         deletedKeys := some [] }, []) ∧
    (deleteOk = true →
      keysToDelete (now - BACKUP_RETENTION_DAYS * msPerDay) objs ≠ [] →
      cleanupOldBackups true now (some objs) deleteOk =
        ({ success := true,
           deletedCount := some
             (keysToDelete (now - BACKUP_RETENTION_DAYS * msPerDay)
               objs).length,
           deletedKeys := some
             (keysToDelete (now - BACKUP_RETENTION_DAYS * msPerDay) objs) },
         [keysToDelete (now - BACKUP_RETENTION_DAYS * msPerDay) objs])) := by
  refine ⟨?_, ?_, rfl, rfl, ?_⟩
  · intro o ho k t hk ht
    constructor
    · intro hmem
      obtain ⟨o2, ho2, hk2, _, t2, ht2, hlt2⟩ :=
        (mem_keysToDelete (now - BACKUP_RETENTION_DAYS * msPerDay)
          objs k).mp hmem
      have hoo : o = o2 := nodup_key_unique objs hnd o ho o2 ho2 k hk hk2
      rw [← hoo] at ht2
      rw [ht] at ht2
      injection ht2 with ht2
      rwa [ht2]
    · intro hlt
      obtain ⟨k1, t1, hk1, hne1, ht1⟩ := hwf o ho
      rw [hk] at hk1
      injection hk1 with hk1
      rw [← hk1] at hne1
      exact (mem_keysToDelete (now - BACKUP_RETENTION_DAYS * msPerDay)
        objs k).mpr ⟨o, ho, hk, hne1, t, ht, hlt⟩
  · intro hyoung
    have hempty :
        keysToDelete (now - BACKUP_RETENTION_DAYS * msPerDay) objs = [] := by
      unfold keysToDelete
      rw [List.filterMap_eq_nil_iff]
      intro o ho
      rcases hk : o.key with _ | k
      · simp [hk]
      · rcases ht : o.lastModified with _ | t
        · simp [hk, ht]
        · have hy : ¬ t < now - BACKUP_RETENTION_DAYS * msPerDay :=
            not_lt.mpr (hyoung o ho t ht)
          simp [hk, ht, hy]
    cases objs with
    | nil => rfl
    | cons a rest => simp [cleanupOldBackups, hempty]
  · intro hdel hne
    cases objs with
    | nil => simp [keysToDelete] at hne
    | cons a rest =>
      have hlen : ¬(keysToDelete (now - BACKUP_RETENTION_DAYS * msPerDay)
          (a :: rest)).length = 0 := by
        simpa [List.length_eq_zero] using hne
      simp [cleanupOldBackups, hdel, hlen]

/-- Closed witness for `C3_retention_cutoff`: two archives, one 15 days old
and one 1 day old, at `now` = day 20; the old one is selected and the young
one retained. -/
theorem C3_retention_cutoff_witness :
    (∀ o ∈ [(⟨some "backups/old", some (5 * msPerDay), some 10⟩ : S3Object),
            ⟨some "backups/new", some (19 * msPerDay), some 10⟩],
      ∀ k t, o.key = some k → o.lastModified = some t →
      (k ∈ keysToDelete (20 * msPerDay - BACKUP_RETENTION_DAYS * msPerDay)
          [⟨some "backups/old", some (5 * msPerDay), some 10⟩,
           ⟨some "backups/new", some (19 * msPerDay), some 10⟩] ↔
        t < 20 * msPerDay - BACKUP_RETENTION_DAYS * msPerDay)) ∧
    ((∀ o ∈ [(⟨some "backups/old", some (5 * msPerDay), some 10⟩ : S3Object),
             ⟨some "backups/new", some (19 * msPerDay), some 10⟩],
        ∀ t, o.lastModified = some t →
        20 * msPerDay - BACKUP_RETENTION_DAYS * msPerDay ≤ t) →
      cleanupOldBackups true (20 * msPerDay)
        (some [⟨some "backups/old", some (5 * msPerDay), some 10⟩,
               ⟨some "backups/new", some (19 * msPerDay), some 10⟩]) true =
        ({ success := true, deletedCount := some 0,
           deletedKeys := some [] }, [])) ∧
    cleanupOldBackups true (20 * msPerDay) none true =
      ({ success := true, deletedCount := some 0,
         deletedKeys := some [] }, []) ∧
    cleanupOldBackups true (20 * msPerDay) (some []) true =
      ({ success := true, deletedCount := some 0,
         deletedKeys := some [] }, []) ∧
    (true = true →
      keysToDelete (20 * msPerDay - BACKUP_RETENTION_DAYS * msPerDay)
        [⟨some "backups/old", some (5 * msPerDay), some 10⟩,
         ⟨some "backups/new", some (19 * msPerDay), some 10⟩] ≠ [] →
      cleanupOldBackups true (20 * msPerDay)
        (some [⟨some "backups/old", some (5 * msPerDay), some 10⟩,
               ⟨some "backups/new", some (19 * msPerDay), some 10⟩]) true =
        ({ success := true,
           deletedCount := some
             (keysToDelete (20 * msPerDay - BACKUP_RETENTION_DAYS * msPerDay)
               [⟨some "backups/old", some (5 * msPerDay), some 10⟩,
                ⟨some "backups/new", some (19 * msPerDay), some 10⟩]).length,
           deletedKeys := some
             (keysToDelete (20 * msPerDay - BACKUP_RETENTION_DAYS * msPerDay)
               [⟨some "backups/old", some (5 * msPerDay), some 10⟩,
                ⟨some "backups/new", some (19 * msPerDay), some 10⟩]) },
         [keysToDelete (20 * msPerDay - BACKUP_RETENTION_DAYS * msPerDay)
            [⟨some "backups/old", some (5 * msPerDay), some 10⟩,
             ⟨some "backups/new", some (19 * msPerDay), some 10⟩]])) :=
  C3_retention_cutoff (20 * msPerDay)
    [⟨some "backups/old", some (5 * msPerDay), some 10⟩,
     ⟨some "backups/new", some (19 * msPerDay), some 10⟩] true
    (by
      intro o ho
      rcases List.mem_cons.mp ho with rfl | ho
      · exact ⟨"backups/old", 5 * msPerDay, rfl, by decide, rfl⟩
      · rcases List.mem_cons.mp ho with rfl | ho
        · exact ⟨"backups/new", 19 * msPerDay, rfl, by decide, rfl⟩
        · simp at ho)
    (by decide)

/-- A listing of 1001 distinctly keyed epoch-dated archives
(`k0` … `k1000`), all past any positive cutoff. -/
def bigListing : List S3Object :=
  (List.range 1001).map fun i =>
    ⟨some ("k" ++ toString i), some 0, some 1⟩

lemma numberedKey_ne_empty (i : Nat) : (("k" ++ toString i) != "") = true := by
  rw [bne_iff_ne]
  intro h
  have hlen : ("k" ++ toString i).length = 1 + (toString i).length := by
    rw [String.length_append]
    rfl
  rw [h] at hlen
  simp at hlen
  omega

lemma keysToDelete_numbered (cutoff : Int) (h : 0 < cutoff) (l : List Nat) :
    keysToDelete cutoff (l.map fun i =>
        ⟨some ("k" ++ toString i), some 0, some 1⟩) =
      l.map fun i => "k" ++ toString i := by
  induction l with
  | nil => rfl
  | cons i rest ih =>
    unfold keysToDelete at ih ⊢
    simp only [List.map_cons, List.filterMap_cons]
    rw [ih]
    simp [numberedKey_ne_empty i, h]

/-- C5: the claim that a retention selection larger than the 1000-key
batch ceiling is chunked into several delete-batch calls fails: with 1001
expired archives the sweep issues a single `DeleteObjectsCommand` holding
all 1001 keys. -/
theorem C5_counterexample :
    (cleanupOldBackups true (15 * msPerDay) (some bigListing) true).2 =
      [(List.range 1001).map fun i => "k" ++ toString i] ∧
    ¬ ∀ batch ∈ (cleanupOldBackups true (15 * msPerDay)
        (some bigListing) true).2, batch.length ≤ 1000 := by
  have hcut : (0 : Int) < 15 * msPerDay - BACKUP_RETENTION_DAYS * msPerDay := by
    norm_num [msPerDay, BACKUP_RETENTION_DAYS]
  have hks : keysToDelete (15 * msPerDay - BACKUP_RETENTION_DAYS * msPerDay)
      bigListing = (List.range 1001).map fun i => "k" ++ toString i :=
    keysToDelete_numbered _ hcut (List.range 1001)
  have hkslen : ((List.range 1001).map fun i =>
      ("k" ++ toString i)).length = 1001 := by
    rw [List.length_map, List.length_range]
  have hlen : bigListing.length = 1001 := by
    unfold bigListing
    rw [List.length_map, List.length_range]
  have htr : (cleanupOldBackups true (15 * msPerDay)
      (some bigListing) true).2 =
      [(List.range 1001).map fun i => "k" ++ toString i] := by
    simp [cleanupOldBackups, hlen, hks, hkslen]
  refine ⟨htr, ?_⟩
  intro hall
  have hb := hall ((List.range 1001).map fun i => "k" ++ toString i)
    (by rw [htr]; exact List.mem_singleton.mpr rfl)
  rw [hkslen] at hb
  omega

/-- C5 (amended): the sweep never chunks.  For every listing it issues
either no delete-batch call (empty selection) or exactly one call carrying
every selected key, regardless of whether the selection exceeds the store's
1000-key ceiling. -/
theorem C5_single_delete_batch (now : Int) (objs : List S3Object)
    (deleteOk : Bool) :
    (cleanupOldBackups true now (some objs) deleteOk).2 =
      if (keysToDelete (now - BACKUP_RETENTION_DAYS * msPerDay) objs).length
          = 0 then []
      else [keysToDelete (now - BACKUP_RETENTION_DAYS * msPerDay) objs] := by
  cases objs with
  | nil => simp [cleanupOldBackups, keysToDelete]
  | cons a rest =>
    by_cases hks : (keysToDelete (now - BACKUP_RETENTION_DAYS * msPerDay)
        (a :: rest)).length = 0
    · simp [cleanupOldBackups, hks]
    · cases deleteOk <;> simp [cleanupOldBackups, hks]

/-- ASCII lowercasing of one character, the effect of JS `toLowerCase` on
the characters the prompt comparison can meet. -/
def lowerChar (c : Char) : Char :=
  if c.toNat ≥ 65 && c.toNat ≤ 90 then Char.ofNat (c.toNat + 32) else c

/-- Lowercasing of a string, character by character. -/
def lowerStr (s : String) : String := ⟨s.data.map lowerChar⟩

/-- The acceptance test of `askConfirmation` (restore-backup.ts line 317):
the lowercased reply must be exactly yes or y. -/
def confirmed (answer : String) : Bool :=
  lowerStr answer == "yes" || lowerStr answer == "y"

/-- The test `arg.startsWith "--")` of the argument scan (restore-backup.ts
line 182), expressed on the character list: the string opens with two
dashes. -/
def isFlag (s : String) : Bool :=
  match s.data with
  | c1 :: c2 :: _ => c1 = '-' && c2 = '-'
  | _ => false

/-- Environment for one run of the restore tool: whether reading (and, for a
gz path, decompressing) the file succeeds (restore-backup.ts lines 218-231),
whether `JSON.parse` succeeds (lines 234-240), the truthiness of the parsed
document's `metadata` and `data` fields (line 243), the operator's reply to
the confirmation prompt, and the restore-phase environment and backup
tables. -/
structure MainEnv where
  readOk : Bool
  parseOk : Bool
  hasMetadata : Bool
  hasData : Bool
  answer : String
  restoreEnv : RestoreEnv
  tables : BackupTables

/-- `main` of the restore tool (restore-backup.ts lines 180-306): the first
non-flag argument is the backup path, and the `!backupPath` falsy test
(line 186) exits 1 with usage both when that argument is absent and when it
is the empty string; read failure, parse failure and validation failure each
exit 1 before any database call; `--dry-run` exits 0 after validation;
without `--force` a reply other than yes aborts with exit 0 (line 287);
otherwise `restoreDatabase` runs, a throw exiting 1 and success letting the
process end with exit 0.  Returns the exit code and the database calls
issued. -/
def mainRun (env : MainEnv) (args : List String) : Nat × List DbCall :=
  match args.find? (fun a => !(isFlag a)) with
  | none => (1, [])
  | some p =>
    if p = "" then (1, [])
    else if !env.readOk then (1, [])
    else if !env.parseOk then (1, [])
    else if !env.hasMetadata || !env.hasData then (1, [])
    else if args.contains "--dry-run" then (0, [])
    else if !args.contains "--force" && !confirmed env.answer then (0, [])
    else
      let r := restoreDatabase env.restoreEnv env.tables
      if r.2 then (0, r.1) else (1, r.1)

/-- A run environment in which every step succeeds but the operator declines
the confirmation prompt. -/
def declineEnv : MainEnv :=
  { readOk := true, parseOk := true, hasMetadata := true, hasData := true,
    answer := "no", restoreEnv := allOkEnv, tables := fullData }

/-- `declineEnv` with an unreadable backup file. -/
def readFailEnv : MainEnv := { declineEnv with readOk := false }

/-- `declineEnv` with a parsed document lacking the `metadata` field. -/
def noMetaEnv : MainEnv := { declineEnv with hasMetadata := false }

/-- `declineEnv` with the restore throwing on the `verificationTokens`
batch. -/
def restoreFailEnv : MainEnv := { declineEnv with restoreEnv := failTokensEnv }

/-- C4: the claim that declining the interactive confirmation prompt makes
the process exit with code 1 fails: `main` calls `process.exit(0)` on
cancellation (restore-backup.ts line 287), so a declined prompt exits 0. -/
theorem C4_counterexample :
    (mainRun declineEnv ["backup.json.gz"]).1 = 0 ∧
    ¬ (mainRun declineEnv ["backup.json.gz"]).1 = 1 := by decide

/-- C4 (amended): the restore tool exits 0 on successful restore, on dry-run
completion, and on user cancellation of the confirmation prompt; it exits 1
on a missing path argument, on read/decompress failure, on parse failure, on
validation failure, and on restore failure. -/
theorem C4_exit_codes (env : MainEnv) (args : List String) :
    (args.find? (fun a => !(isFlag a)) = none → (mainRun env args).1 = 1) ∧
    (∀ p, args.find? (fun a => !(isFlag a)) = some p → p = "" →
      (mainRun env args).1 = 1) ∧
    (∀ p, args.find? (fun a => !(isFlag a)) = some p → p ≠ "" →
      env.readOk = false → (mainRun env args).1 = 1) ∧
    (∀ p, args.find? (fun a => !(isFlag a)) = some p → p ≠ "" →
      env.readOk = true → env.parseOk = false → (mainRun env args).1 = 1) ∧
    (∀ p, args.find? (fun a => !(isFlag a)) = some p → p ≠ "" →
      env.readOk = true → env.parseOk = true →
      (env.hasMetadata = false ∨ env.hasData = false) →
      (mainRun env args).1 = 1) ∧
    (∀ p, args.find? (fun a => !(isFlag a)) = some p → p ≠ "" →
      env.readOk = true → env.parseOk = true → env.hasMetadata = true →
      env.hasData = true → "--dry-run" ∈ args →
      (mainRun env args).1 = 0) ∧
    (∀ p, args.find? (fun a => !(isFlag a)) = some p → p ≠ "" →
      env.readOk = true → env.parseOk = true → env.hasMetadata = true →
      env.hasData = true → "--dry-run" ∉ args → "--force" ∉ args →
      confirmed env.answer = false → (mainRun env args).1 = 0) ∧
    (∀ p, args.find? (fun a => !(isFlag a)) = some p → p ≠ "" →
      env.readOk = true → env.parseOk = true → env.hasMetadata = true →
      env.hasData = true → "--dry-run" ∉ args →
      ("--force" ∈ args ∨ confirmed env.answer = true) →
      (restoreDatabase env.restoreEnv env.tables).2 = true →
      (mainRun env args).1 = 0) ∧
    (∀ p, args.find? (fun a => !(isFlag a)) = some p → p ≠ "" →
      env.readOk = true → env.parseOk = true → env.hasMetadata = true →
      env.hasData = true → "--dry-run" ∉ args →
      ("--force" ∈ args ∨ confirmed env.answer = true) →
      (restoreDatabase env.restoreEnv env.tables).2 = false →
      (mainRun env args).1 = 1) := by
  refine ⟨?_, ?_, ?_, ?_, ?_, ?_, ?_, ?_, ?_⟩
  · intro h
    simp [mainRun, h]
  · intro p hp hpe
    subst hpe
    simp [mainRun, hp]
  · intro p hp hpne h
    simp [mainRun, hp, hpne, h]
  · intro p hp hpne h1 h2
    simp [mainRun, hp, hpne, h1, h2]
  · intro p hp hpne h1 h2 h3
    rcases h3 with h3 | h3 <;> simp [mainRun, hp, hpne, h1, h2, h3]
  · intro p hp hpne h1 h2 h3 h4 h5
    simp [mainRun, hp, hpne, h1, h2, h3, h4, h5]
  · intro p hp hpne h1 h2 h3 h4 h5 h6 h7
    simp [mainRun, hp, hpne, h1, h2, h3, h4, h5, h6, h7]
  · intro p hp hpne h1 h2 h3 h4 h5 h6 h7
    rcases h6 with h6 | h6 <;>
      simp [mainRun, hp, hpne, h1, h2, h3, h4, h5, h6, h7]
  · intro p hp hpne h1 h2 h3 h4 h5 h6 h7
    rcases h6 with h6 | h6 <;>
      simp [mainRun, hp, hpne, h1, h2, h3, h4, h5, h6, h7]

/-- Closed witness for `C4_exit_codes`, exercising the missing-path,
empty-path, read-failure, dry-run, cancellation, forced-success and
forced-failure paths at concrete inputs. -/
theorem C4_exit_codes_witness :
    (mainRun declineEnv []).1 = 1 ∧
    (mainRun declineEnv ["", "--dry-run"]).1 = 1 ∧
    (mainRun readFailEnv ["backup.json"]).1 = 1 ∧
    (mainRun declineEnv ["backup.json", "--dry-run"]).1 = 0 ∧
    (mainRun declineEnv ["backup.json"]).1 = 0 ∧
    (mainRun declineEnv ["backup.json", "--force"]).1 = 0 ∧
    (mainRun restoreFailEnv ["backup.json", "--force"]).1 = 1 :=
  ⟨(C4_exit_codes declineEnv []).1 (by decide),
   (C4_exit_codes declineEnv ["", "--dry-run"]).2.1 ""
     (by decide) rfl,
   (C4_exit_codes readFailEnv ["backup.json"]).2.2.1 "backup.json"
     (by decide) (by decide) (by decide),
   (C4_exit_codes declineEnv ["backup.json", "--dry-run"]).2.2.2.2.2.1
     "backup.json" (by decide) (by decide) (by decide) (by decide)
     (by decide) (by decide) (by decide),
   (C4_exit_codes declineEnv ["backup.json"]).2.2.2.2.2.2.1 "backup.json"
     (by decide) (by decide) (by decide) (by decide) (by decide) (by decide)
     (by decide) (by decide) (by decide),
   (C4_exit_codes declineEnv ["backup.json", "--force"]).2.2.2.2.2.2.2.1
     "backup.json" (by decide) (by decide) (by decide) (by decide)
     (by decide) (by decide) (by decide) (Or.inl (by decide)) (by decide),
   (C4_exit_codes restoreFailEnv ["backup.json", "--force"]).2.2.2.2.2.2.2.2
     "backup.json" (by decide) (by decide) (by decide) (by decide)
     (by decide) (by decide) (by decide) (Or.inl (by decide)) (by decide)⟩

/-- C6: when the parsed document lacks a truthy `metadata` or `data` field,
the run exits 1 having issued no database call at all (validation precedes
any wipe or insert); a dry-run exits 0 likewise without any database
call. -/
theorem C6_validation_guard (env : MainEnv) (args : List String) (p : String)
    (hpath : args.find? (fun a => !(isFlag a)) = some p) (hpne : p ≠ "")
    (hread : env.readOk = true) (hparse : env.parseOk = true) :
    ((env.hasMetadata = false ∨ env.hasData = false) →
      mainRun env args = (1, [])) ∧
    (env.hasMetadata = true → env.hasData = true → "--dry-run" ∈ args →
      mainRun env args = (0, [])) := by
  constructor
  · intro h
    rcases h with h | h <;> simp [mainRun, hpath, hpne, hread, hparse, h]
  · intro h1 h2 h3
    simp [mainRun, hpath, hpne, hread, hparse, h1, h2, h3]

/-- Closed witness for `C6_validation_guard`: a document missing `metadata`
exits 1 with no database calls, and a valid dry-run exits 0 with no database
calls. -/
theorem C6_validation_guard_witness :
    mainRun noMetaEnv ["backup.json"] = (1, []) ∧
    mainRun declineEnv ["backup.json", "--dry-run"] = (0, []) :=
  ⟨(C6_validation_guard noMetaEnv ["backup.json"] "backup.json"
      (by decide) (by decide) (by decide) (by decide)).1 (Or.inl rfl),
   (C6_validation_guard declineEnv ["backup.json", "--dry-run"] "backup.json"
      (by decide) (by decide) (by decide) (by decide)).2 rfl rfl (by decide)⟩

/-- The 23 tables `exportAllTables` reads, in its fixed order (lib/backup
lines 94-217); the `users` read inlines the `accounts` and `sessions`
collections onto each row. -/
def tableRegistry : List String :=
  ["users", "verificationTokens", "courses", "courseLecturers", "modules",
   "lessons", "lessonResources", "resourceVersions", "quizzes",
   "quizQuestions", "quizAnswers", "quizAttempts", "quizResponses",
   "courseEnrollments", "lessonProgress", "assignments",
   "assignmentSubmissions", "assignmentSubmissionAttachments",
   "submissions", "submissionAttachments", "uploadedFiles",
   "notifications", "auditLogs"]

/-- Environment for one export run: the outcome of each table's `findMany`
(a throw propagates), and whether `JSON.stringify`, `gzipSync` and the
`PutObjectCommand` upload succeed. -/
structure ExportEnv where
  tableRows : String → Except String (List Row)
  stringifyOk : Bool
  gzipOk : Bool
  uploadOk : Bool

/-- The sequential table reads of `exportAllTables` (lib/backup lines
94-217): each table of `l` is read in order into the document; the first
throw aborts the whole export. -/
def exportTables (env : ExportEnv) :
    List String → Except String (List (String × List Row))
  | [] => .ok []
  | t :: ts =>
    match env.tableRows t with
    | .error e => .error e
    | .ok rs =>
      match exportTables env ts with
      | .error e => .error e
      | .ok rest => .ok ((t, rs) :: rest)

/-- `BackupMetadata` as built by `exportAllTables` (lib/backup lines
230-237).  `createdAt`, `environment` and `checksum` are environmental
(timestamp, env var, hash of the serialized bytes) and carry no content the
claims mention; they are omitted. -/
structure ExportMetadata where
  version : String
  tables : List (String × Nat)
  totalRecords : Nat
deriving DecidableEq

/-- `exportAllTables` (lib/backup lines 84-240): reads every registered
table in order, then derives per-table counts from the observed rows and
`totalRecords` by the `reduce` over the counts. -/
def exportAllTables (env : ExportEnv) :
    Except String (List (String × List Row) × ExportMetadata) :=
  match exportTables env tableRegistry with
  | .error e => .error e
  | .ok data =>
    .ok (data,
      { version := "1.0.0",
        tables := data.map fun p => (p.1, p.2.length),
        totalRecords := (data.map fun p => p.2.length).foldl (· + ·) 0 })

/-- `BackupResult` (lib/backup lines 47-55); `key`, `size` and `duration`
are environmental and omitted. -/
structure BackupRunResult where
  success : Bool
  tablesBackedUp : Option Nat := none
  totalRecords : Option Nat := none
  error : Option String := none
deriving DecidableEq

/-- Stand-in for the timestamped archive key `createBackup` builds
(lib/backup lines 289-296); its exact value is environmental. -/
def backupKey : String := "backups/DATE/DATE_TIME_full.json.gz"

/-- `createBackup` (lib/backup lines 262-336): export all tables, serialize,
compress, and only then upload; any throw is caught and reported as a failed
result.  Returns the result and the trace of issued upload calls. -/
def createBackup (env : ExportEnv) : BackupRunResult × List String :=
  match exportAllTables env with
  | .error e => ({ success := false, error := some e }, [])
  | .ok (_, md) =>
    if !env.stringifyOk then
      ({ success := false, error := some "stringify failed" }, [])
    else if !env.gzipOk then
      ({ success := false, error := some "gzip failed" }, [])
    else if env.uploadOk then
      ({ success := true, tablesBackedUp := some md.tables.length,
         totalRecords := some md.totalRecords }, [backupKey])
    else ({ success := false, error := some "upload failed" }, [backupKey])

/-- A table read that throws somewhere in `l` makes the whole sequential
export fail. -/
lemma exportTables_error (env : ExportEnv) (l : List String) (t : String)
    (ht : t ∈ l) (e : String) (he : env.tableRows t = .error e) :
    ∃ e2, exportTables env l = .error e2 := by
  induction l with
  | nil => cases ht
  | cons a rest ih =>
    rcases List.mem_cons.mp ht with rfl | ht2
    · exact ⟨e, by simp [exportTables, he]⟩
    · cases ha : env.tableRows a with
      | error e3 => exact ⟨e3, by simp [exportTables, ha]⟩
      | ok rs =>
        obtain ⟨e2, h2⟩ := ih ht2
        exact ⟨e2, by simp [exportTables, ha, h2]⟩

/-- C7: `createBackup` uploads only after every registered table was read
and serialization and compression succeeded; when any table read throws, or
serialization or compression fails, the run reports failure and no upload
call is ever issued. -/
theorem C7_upload_after_full_export (env : ExportEnv) :
    (∀ e, exportAllTables env = .error e →
      createBackup env = ({ success := false, error := some e }, [])) ∧
    (env.stringifyOk = false →
      (createBackup env).1.success = false ∧ (createBackup env).2 = []) ∧
    (env.gzipOk = false →
      (createBackup env).1.success = false ∧ (createBackup env).2 = []) ∧
    ((createBackup env).2 ≠ [] →
      (∃ d md, exportAllTables env = .ok (d, md)) ∧
      env.stringifyOk = true ∧ env.gzipOk = true) ∧
    ((∃ t ∈ tableRegistry, ∃ e, env.tableRows t = .error e) →
      (createBackup env).1.success = false ∧ (createBackup env).2 = []) := by
  refine ⟨?_, ?_, ?_, ?_, ?_⟩
  · intro e he
    simp [createBackup, he]
  · intro h
    cases hx : exportAllTables env with
    | error e => simp [createBackup, hx]
    | ok pr => simp [createBackup, hx, h]
  · intro h
    cases hx : exportAllTables env with
    | error e => simp [createBackup, hx]
    | ok pr => cases hs : env.stringifyOk <;> simp [createBackup, hx, hs, h]
  · intro h
    cases hx : exportAllTables env with
    | error e =>
      exfalso
      apply h
      simp [createBackup, hx]
    | ok pr =>
      cases hs : env.stringifyOk
      · exfalso
        apply h
        simp [createBackup, hx, hs]
      · cases hg : env.gzipOk
        · exfalso
          apply h
          simp [createBackup, hx, hs, hg]
        · exact ⟨⟨pr.1, pr.2, rfl⟩, rfl, rfl⟩
  · rintro ⟨t, ht, e, he⟩
    obtain ⟨e2, h2⟩ := exportTables_error env tableRegistry t ht e he
    simp [createBackup, exportAllTables, h2]

/-- An export environment in which every table reads back empty and every
later step succeeds. -/
def emptyRowsEnv : ExportEnv := ⟨fun _ => .ok [], true, true, true⟩

/-- `emptyRowsEnv` with the `quizzes` read throwing. -/
def quizzesFailEnv : ExportEnv :=
  ⟨fun t => if t == "quizzes" then .error "read failed" else .ok [],
   true, true, true⟩

/-- Closed witness for `C7_upload_after_full_export`: a successful run did
upload after a full export, and a run whose `quizzes` read throws reports
failure with no upload. -/
theorem C7_upload_after_full_export_witness :
    ((∃ d md, exportAllTables emptyRowsEnv = .ok (d, md)) ∧
      emptyRowsEnv.stringifyOk = true ∧ emptyRowsEnv.gzipOk = true) ∧
    ((createBackup quizzesFailEnv).1.success = false ∧
      (createBackup quizzesFailEnv).2 = []) :=
  ⟨(C7_upload_after_full_export emptyRowsEnv).2.2.2.1 (by decide),
   (C7_upload_after_full_export quizzesFailEnv).2.2.2.2
     ⟨"quizzes", by decide, "read failed", rfl⟩⟩

/-- Lookup in the document's data map. -/
def lookupTable (k : String) (d : List (String × List Row)) :
    Option (List Row) :=
  (d.find? fun q => q.1 == k).map Prod.snd

lemma exportTables_ok_names (env : ExportEnv) (l : List String)
    (d : List (String × List Row)) (h : exportTables env l = .ok d) :
    d.map Prod.fst = l := by
  induction l generalizing d with
  | nil =>
    simp [exportTables] at h
    simp [← h]
  | cons a rest ih =>
    cases ha : env.tableRows a with
    | error e => simp [exportTables, ha] at h
    | ok rs =>
      cases hr : exportTables env rest with
      | error e => simp [exportTables, ha, hr] at h
      | ok tail =>
        simp [exportTables, ha, hr] at h
        rw [← h]
        simp [ih tail hr]

lemma find_self_of_nodup (d : List (String × List Row))
    (hnd : (d.map Prod.fst).Nodup) (q : String × List Row) (hq : q ∈ d) :
    d.find? (fun r => r.1 == q.1) = some q := by
  induction d with
  | nil => cases hq
  | cons a rest ih =>
    rcases List.mem_cons.mp hq with rfl | hq2
    · simp [List.find?]
    · have hne : ¬(a.1 == q.1) = true := by
        simp only [List.map_cons, List.nodup_cons] at hnd
        intro hbeq
        apply hnd.1
        rw [eq_of_beq hbeq]
        exact List.mem_map.mpr ⟨q, hq2, rfl⟩
      simp only [List.find?]
      rw [Bool.of_not_eq_true hne]
      exact ih (by
        simp only [List.map_cons, List.nodup_cons] at hnd
        exact hnd.2) hq2

lemma foldl_add_eq_sum (l : List Nat) (n : Nat) :
    l.foldl (· + ·) n = n + l.sum := by
  induction l generalizing n with
  | nil => simp
  | cons a rest ih =>
    simp only [List.foldl_cons, List.sum_cons, ih]
    omega

/-- C9: in every document the exporter produces, `totalRecords` equals the
sum of the per-table counts, and each per-table count equals the number of
rows stored for that table in the document's data map. -/
theorem C9_metadata_counts (env : ExportEnv)
    (d : List (String × List Row)) (md : ExportMetadata)
    (h : exportAllTables env = .ok (d, md)) :
    md.totalRecords = (md.tables.map Prod.snd).sum ∧
    md.tables = d.map (fun p => (p.1, p.2.length)) ∧
    ∀ p ∈ md.tables, ∃ rs, lookupTable p.1 d = some rs ∧ rs.length = p.2 := by
  cases hx : exportTables env tableRegistry with
  | error e => simp [exportAllTables, hx] at h
  | ok data =>
    simp [exportAllTables, hx] at h
    obtain ⟨rfl, hmd⟩ := h
    have htr : md.totalRecords = (data.map fun p => p.2.length).foldl (· + ·) 0 := by
      rw [← hmd]
    have htab : md.tables = data.map fun p => (p.1, p.2.length) := by
      rw [← hmd]
    refine ⟨?_, htab, ?_⟩
    · rw [htr, htab, foldl_add_eq_sum, List.map_map, Nat.zero_add]
      rfl
    · intro p hp
      rw [htab] at hp
      obtain ⟨q, hq, rfl⟩ := List.mem_map.mp hp
      have hnames : data.map Prod.fst = tableRegistry :=
        exportTables_ok_names env tableRegistry data hx
      have hnd : (data.map Prod.fst).Nodup := by
        rw [hnames]
        decide
      refine ⟨q.2, ?_, rfl⟩
      unfold lookupTable
      rw [find_self_of_nodup data hnd q hq]
      rfl

/-- The document and metadata `exportAllTables` produces when every table is
empty. -/
def emptyDoc : List (String × List Row) := tableRegistry.map fun t => (t, [])

/-- Metadata for `emptyDoc`. -/
def emptyMeta : ExportMetadata :=
  { version := "1.0.0", tables := tableRegistry.map fun t => (t, 0),
    totalRecords := 0 }

/-- Closed witness for `C9_metadata_counts` on the all-empty export. -/
theorem C9_metadata_counts_witness :
    emptyMeta.totalRecords = (emptyMeta.tables.map Prod.snd).sum ∧
    emptyMeta.tables = emptyDoc.map (fun p => (p.1, p.2.length)) ∧
    ∀ p ∈ emptyMeta.tables, ∃ rs, lookupTable p.1 emptyDoc = some rs ∧
      rs.length = p.2 :=
  C9_metadata_counts emptyRowsEnv emptyDoc emptyMeta rfl

/-- A byte value. -/
abbrev Byte := Fin 256

/-- Modelled from the spec: the Archive Codec (spec section 4.3).  The code
compresses with zlib `gzipSync` at level 9 (lib/backup line 283) and
decompresses with `gunzipSync` (restore-backup.ts line 224); zlib is an
external library whose source is not in this repository, so the
deflate-family coder is modelled by an executable run-length coder with the
same contract: a byte-sequence-to-byte-sequence compressor whose
decompressor is its exact inverse.  `rleEncode` groups the input into runs
of up to 255 equal bytes. -/
def rleEncode : List Byte → List (Nat × Byte)
  | [] => []
  | b :: rest =>
    match rleEncode rest with
    | [] => [(1, b)]
    | (n, c) :: tl =>
      if c = b ∧ n < 255 then (n + 1, c) :: tl
      else (1, b) :: (n, c) :: tl

/-- Expansion of run pairs back into bytes. -/
def rleExpand : List (Nat × Byte) → List Byte
  | [] => []
  | (n, b) :: tl => List.replicate n b ++ rleExpand tl

/-- Byte carrying a run count (counts never exceed 255). -/
def countByte (n : Nat) : Byte := ⟨n % 256, Nat.mod_lt n (by decide)⟩

/-- Modelled from the spec: `compress` serializes the run pairs as
count/byte pairs of bytes. -/
def compress (xs : List Byte) : List Byte :=
  (rleEncode xs).flatMap fun p => [countByte p.1, p.2]

/-- Modelled from the spec: `decompress` reads count/byte pairs and expands
each into a run. -/
def decompress : List Byte → List Byte
  | n :: b :: rest => List.replicate n.val b ++ decompress rest
  | _ => []

lemma rleEncode_cons_ne_nil (b : Byte) (rest : List Byte) :
    rleEncode (b :: rest) ≠ [] := by
  unfold rleEncode
  cases rleEncode rest with
  | nil => simp
  | cons p tl =>
    obtain ⟨n, c⟩ := p
    by_cases h : c = b ∧ n < 255 <;> simp [h]

lemma rleEncode_cons_step (b : Byte) (rest : List Byte) (n : Nat) (c : Byte)
    (tl : List (Nat × Byte)) (h : rleEncode rest = (n, c) :: tl) :
    rleEncode (b :: rest) =
      if c = b ∧ n < 255 then (n + 1, c) :: tl
      else (1, b) :: (n, c) :: tl := by
  unfold rleEncode
  rw [h]

lemma rleExpand_rleEncode (xs : List Byte) :
    rleExpand (rleEncode xs) = xs := by
  induction xs with
  | nil => rfl
  | cons b rest ih =>
    cases h : rleEncode rest with
    | nil =>
      have hrest : rest = [] := by
        cases rest with
        | nil => rfl
        | cons x xs2 => exact absurd h (rleEncode_cons_ne_nil x xs2)
      subst hrest
      simp [rleEncode, rleExpand]
    | cons p tl =>
      obtain ⟨n, c⟩ := p
      rw [h] at ih
      rw [rleEncode_cons_step b rest n c tl h]
      by_cases hc : c = b ∧ n < 255
      · obtain ⟨hcb, hn⟩ := hc
        subst hcb
        rw [if_pos ⟨rfl, hn⟩, rleExpand, List.replicate_succ, List.cons_append]
        rw [rleExpand] at ih
        rw [ih]
      · rw [if_neg hc, rleExpand, ih]
        rfl

lemma rleEncode_count_le (xs : List Byte) :
    ∀ p ∈ rleEncode xs, p.1 ≤ 255 := by
  induction xs with
  | nil =>
    intro p hp
    simp [rleEncode] at hp
  | cons b rest ih =>
    intro p hp
    cases h : rleEncode rest with
    | nil =>
      have hone : rleEncode (b :: rest) = [(1, b)] := by
        unfold rleEncode
        rw [h]
      rw [hone] at hp
      simp at hp
      rw [hp]
      show (1 : Nat) ≤ 255
      decide
    | cons q tl =>
      obtain ⟨n, c⟩ := q
      rw [rleEncode_cons_step b rest n c tl h] at hp
      by_cases hc : c = b ∧ n < 255
      · rw [if_pos hc] at hp
        rcases List.mem_cons.mp hp with rfl | hp2
        · show n + 1 ≤ 255
          have := hc.2
          omega
        · exact ih p (by
            rw [h]
            exact List.mem_cons_of_mem _ hp2)
      · rw [if_neg hc] at hp
        rcases List.mem_cons.mp hp with rfl | hp2
        · show (1 : Nat) ≤ 255
          decide
        · exact ih p (by
            rw [h]
            exact hp2)

lemma decompress_serialized (ps : List (Nat × Byte))
    (hb : ∀ p ∈ ps, p.1 ≤ 255) :
    decompress (ps.flatMap fun p => [countByte p.1, p.2]) = rleExpand ps := by
  induction ps with
  | nil => rfl
  | cons p tl ih =>
    obtain ⟨n, b⟩ := p
    have hn : n ≤ 255 := hb (n, b) (List.mem_cons_self _ _)
    have hmod : (countByte n).val = n := Nat.mod_eq_of_lt (by omega)
    simp only [List.flatMap_cons, List.cons_append, List.nil_append]
    have hd : decompress (countByte n :: b ::
        (tl.flatMap fun p => [countByte p.1, p.2])) =
        List.replicate (countByte n).val b ++
          decompress (tl.flatMap fun p => [countByte p.1, p.2]) := rfl
    rw [hd, hmod, ih fun q hq => hb q (List.mem_cons_of_mem _ hq)]
    rfl

/-- C8: decompressing the compression of any byte sequence yields exactly
that sequence — the byte-for-byte round-trip law of the archive codec. -/
theorem C8_roundtrip (xs : List Byte) : decompress (compress xs) = xs := by
  unfold compress
  rw [decompress_serialized (rleEncode xs) (rleEncode_count_le xs),
    rleExpand_rleEncode]

/-- JS truthiness of the optional `Key` field: present and non-empty. -/
def truthyKey : Option String → Bool
  | some s => s != ""
  | none => false

/-- JS truthiness of the optional `Size` field: present and non-zero (a
reported size of 0 is falsy). -/
def truthySize : Option Int → Bool
  | some n => n != 0
  | none => false

/-- The filter of `listBackups` (lib/backup lines 438-440):
`obj.Key && obj.Size && obj.LastModified` — a Date object is always truthy,
so `LastModified` only needs to be present. -/
def listFilter (o : S3Object) : Bool :=
  truthyKey o.key && truthySize o.size && o.lastModified.isSome

/-- `BackupInfo` (lib/backup lines 413-418); the optional request for object
metadata is unused by the listing and omitted. -/
structure BackupInfo where
  key : String
  size : Int
  lastModified : Int
deriving DecidableEq

/-- The mapping of a filtered listing entry to a `BackupInfo` (lib/backup
lines 441-445); the defaults are never reached on entries passing
`listFilter`. -/
def toInfo (o : S3Object) : BackupInfo :=
  { key := o.key.getD "", size := o.size.getD 0,
    lastModified := o.lastModified.getD 0 }

/-- Insertion into a list sorted by `lastModified` descending. -/
def insertDesc (b : BackupInfo) : List BackupInfo → List BackupInfo
  | [] => [b]
  | c :: rest =>
    if c.lastModified < b.lastModified then b :: c :: rest
    else c :: insertDesc b rest

/-- The sort of `listBackups` (lib/backup line 446): newest first. -/
def sortDesc : List BackupInfo → List BackupInfo
  | [] => []
  | b :: rest => insertDesc b (sortDesc rest)

/-- `listBackups` (lib/backup lines 423-451): the listing's `Contents`
filtered by truthiness of `Key`, `Size` and `LastModified`, mapped to
`BackupInfo` and sorted newest first; an absent `Contents` yields the empty
listing. -/
def listBackups : Option (List S3Object) → List BackupInfo
  | none => []
  | some objs => sortDesc ((objs.filter listFilter).map toInfo)

/-- `BackupStats` (lib/backup lines 457-463); `backupsByDate` is a
date-string histogram of the same filtered listing and is omitted as purely
presentational. -/
structure BackupStats where
  totalBackups : Nat
  totalSize : Int
  oldestBackup : Option Int := none
  newestBackup : Option Int := none
deriving DecidableEq

/-- `getBackupStats` (lib/backup lines 468-488): derived entirely from
`listBackups` — count, summed sizes, first (newest) and last (oldest)
timestamps of the sorted listing. -/
def getBackupStats (contents : Option (List S3Object)) : BackupStats :=
  let backups := listBackups contents
  { totalBackups := backups.length
    totalSize := (backups.map BackupInfo.size).foldl (· + ·) 0
    newestBackup := backups.head?.map BackupInfo.lastModified
    oldestBackup := backups.getLast?.map BackupInfo.lastModified }

lemma mem_insertDesc (b x : BackupInfo) (l : List BackupInfo) :
    x ∈ insertDesc b l ↔ x = b ∨ x ∈ l := by
  induction l with
  | nil => simp [insertDesc]
  | cons c rest ih =>
    unfold insertDesc
    by_cases h : c.lastModified < b.lastModified <;> (simp [h, ih]; try tauto)

lemma mem_sortDesc (x : BackupInfo) (l : List BackupInfo) :
    x ∈ sortDesc l ↔ x ∈ l := by
  induction l with
  | nil => simp [sortDesc]
  | cons b rest ih => simp [sortDesc, mem_insertDesc, ih]

lemma filter_listFilter_truthySize (objs : List S3Object) :
    objs.filter listFilter =
      (objs.filter fun o => truthySize o.size).filter listFilter := by
  induction objs with
  | nil => rfl
  | cons o rest ih =>
    by_cases hs : truthySize o.size = true
    · by_cases hf : listFilter o = true <;>
        simp [List.filter_cons, hs, hf, ih]
    · have hs2 : truthySize o.size = false := by
        cases hx : truthySize o.size
        · rfl
        · exact absurd hx hs
      have hf : listFilter o = false := by
        unfold listFilter
        rw [hs2]
        simp
      simp [List.filter_cons, hs, hf, ih]

/-- C10: zero-byte archives are invisible to the listing and to the
statistics — every listed entry has non-zero size, and both the listing and
the statistics are unchanged by removing all zero-size objects — while the
retention sweep, which reads the raw store listing, still selects a
zero-size archive for deletion once it is past the cutoff. -/
theorem C10_zero_size_invisible (objs : List S3Object) (now : Int) :
    (∀ b ∈ listBackups (some objs), b.size ≠ 0) ∧
    listBackups (some objs) =
      listBackups (some (objs.filter fun o => truthySize o.size)) ∧
    getBackupStats (some objs) =
      getBackupStats (some (objs.filter fun o => truthySize o.size)) ∧
    (∀ o ∈ objs, ∀ k t, o.key = some k → (k != "") = true →
      o.lastModified = some t →
      t < now - BACKUP_RETENTION_DAYS * msPerDay →
      k ∈ keysToDelete (now - BACKUP_RETENTION_DAYS * msPerDay) objs) := by
  have hlist : listBackups (some objs) =
      listBackups (some (objs.filter fun o => truthySize o.size)) := by
    simp only [listBackups]
    rw [filter_listFilter_truthySize]
  refine ⟨?_, hlist, ?_, ?_⟩
  · intro b hb
    simp only [listBackups] at hb
    rw [mem_sortDesc] at hb
    obtain ⟨o, ho, rfl⟩ := List.mem_map.mp hb
    have hfo : listFilter o = true := List.of_mem_filter ho
    unfold listFilter at hfo
    obtain ⟨⟨_, hsz⟩, _⟩ := by
      simpa [Bool.and_eq_true] using hfo
    cases hosz : o.size with
    | none =>
      rw [hosz] at hsz
      simp [truthySize] at hsz
    | some n =>
      rw [hosz] at hsz
      show (o.size.getD 0) ≠ 0
      rw [hosz]
      simp only [Option.getD_some]
      simpa [truthySize] using hsz
  · unfold getBackupStats
    rw [hlist]
  · intro o ho k t hk hne ht hlt
    exact (mem_keysToDelete (now - BACKUP_RETENTION_DAYS * msPerDay)
      objs k).mpr ⟨o, ho, hk, hne, t, ht, hlt⟩

/-- A raw listing holding a stale zero-byte archive and a fresh non-empty
one. -/
def mixedListing : List S3Object :=
  [⟨some "backups/zero", some 0, some 0⟩,
   ⟨some "backups/good", some (19 * msPerDay), some 7⟩]

/-- Closed witness for `C10_zero_size_invisible` on `mixedListing` at `now`
= day 20: the zero-size archive is listed nowhere yet selected by the
sweep. -/
theorem C10_zero_size_invisible_witness :
    (∀ b ∈ listBackups (some mixedListing), b.size ≠ 0) ∧
    listBackups (some mixedListing) =
      listBackups (some (mixedListing.filter fun o => truthySize o.size)) ∧
    getBackupStats (some mixedListing) =
      getBackupStats (some (mixedListing.filter fun o => truthySize o.size)) ∧
    "backups/zero" ∈ keysToDelete
      (20 * msPerDay - BACKUP_RETENTION_DAYS * msPerDay) mixedListing :=
  ⟨(C10_zero_size_invisible mixedListing (20 * msPerDay)).1,
   (C10_zero_size_invisible mixedListing (20 * msPerDay)).2.1,
   (C10_zero_size_invisible mixedListing (20 * msPerDay)).2.2.1,
   (C10_zero_size_invisible mixedListing (20 * msPerDay)).2.2.2
     ⟨some "backups/zero", some 0, some 0⟩ (by decide) "backups/zero" 0
     rfl (by decide) rfl (by decide)⟩

end CcaLms
